import Mathlib

/-!
Shallow embedding of the cpplint-cpp benchmarking harness
(`src/benchmark.py` and `src/benchmark/benchmark.py`).

The two scripts are identical except for the default target duration
(30 vs 60 seconds) and the output policy inside `measure_time`
(`src/benchmark.py` always inherits the child's stdout/stderr;
`src/benchmark/benchmark.py` inherits them only on the first invocation
and sends both to `DEVNULL` afterwards).

Modelling choices:
- Wall-clock elapsed times of the child-process invocations are an
  environment oracle `elapsed : ℕ → ℚ` (the elapsed time of the i-th
  invocation of the loop), and the child's exit codes are an oracle
  `ecode : ℕ → ℤ`.  `subprocess.run(command, shell=True)` is a blocking
  call that always completes and returns an object carrying the exit
  code; the scripts never read that object, and with `shell=True` a
  missing or non-executable binary does not raise in the parent: the
  shell itself starts, prints its own diagnostic and exits with a
  non-zero code (127 on POSIX `command not found`).
- Durations are rationals (`float` arithmetic is modelled exactly).
- The `while duration < repeat_time` loop is embedded fuel-indexed:
  `measureLoop ... fuel duration count` runs at most `fuel` further
  loop-body iterations; a `none` loop result means the fuel ran out
  while the Python loop would still be running.
-/

/-- One child-process invocation performed by `measure_time`:
the command string handed to `subprocess.run`, the invocation index
(how many invocations of the same loop preceded it), whether both
stdout and stderr are inherited by the harness (`passthru = true`) or
both sent to `DEVNULL` (`passthru = false`), and the exit code of the
shell. -/
structure Invocation where
  cmd : String
  idx : ℕ
  passthru : Bool
  code : ℤ
deriving DecidableEq

/-- Result of `measure_time`: a normal return of the mean, the
`ZeroDivisionError` raised by `duration / count` when `count = 0`,
or fuel exhaustion (the model's stand-in for a loop that is still
running). -/
inductive MeasureResult where
  | mean (q : ℚ)
  | zeroDivErr
  | fuelOut
deriving DecidableEq

/-- The `while duration < repeat_time` loop of `measure_time` in
`src/benchmark.py` (lines 8-14): check the condition first; if it
holds, run `subprocess.run(command, shell=True)` (stdout/stderr
inherited on every invocation), add the elapsed time to `duration`,
increment `count`, and loop.  Returns the recorded invocations and,
unless the fuel ran out, the final `(duration, count)` pair. -/
def measureLoop (cmd : String) (elapsed : ℕ → ℚ) (ecode : ℕ → ℤ) (repeat_time : ℚ) :
    ℕ → ℚ → ℕ → List Invocation × Option (ℚ × ℕ)
  | 0, duration, count =>
      if duration < repeat_time then ([], none) else ([], some (duration, count))
  | fuel + 1, duration, count =>
      if duration < repeat_time then
        (Invocation.mk cmd count true (ecode count) ::
          (measureLoop cmd elapsed ecode repeat_time fuel (duration + elapsed count) (count + 1)).1,
         (measureLoop cmd elapsed ecode repeat_time fuel (duration + elapsed count) (count + 1)).2)
      else ([], some (duration, count))

/-- `measure_time(command, repeat_time)` from `src/benchmark.py`
(lines 6-15): `duration = 0; count = 0`, run the loop, then return
`duration / count` — which raises `ZeroDivisionError` when the loop
body never ran (`count = 0`). -/
def measure_time (cmd : String) (elapsed : ℕ → ℚ) (ecode : ℕ → ℤ) (repeat_time : ℚ)
    (fuel : ℕ) : List Invocation × MeasureResult :=
  match measureLoop cmd elapsed ecode repeat_time fuel 0 0 with
  | (evs, none) => (evs, MeasureResult.fuelOut)
  | (evs, some (duration, count)) =>
      (evs, if count = 0 then MeasureResult.zeroDivErr
            else MeasureResult.mean (duration / count))

/-- The loop of `measure_time` in `src/benchmark/benchmark.py`
(lines 11-22), the quiet-after-first variant: identical to
`measureLoop` except that the invocation inherits stdout/stderr only
when `count == 0`; every later invocation has both streams sent to
`subprocess.DEVNULL`. -/
def measureLoopQ (cmd : String) (elapsed : ℕ → ℚ) (ecode : ℕ → ℤ) (repeat_time : ℚ) :
    ℕ → ℚ → ℕ → List Invocation × Option (ℚ × ℕ)
  | 0, duration, count =>
      if duration < repeat_time then ([], none) else ([], some (duration, count))
  | fuel + 1, duration, count =>
      if duration < repeat_time then
        (Invocation.mk cmd count (count == 0) (ecode count) ::
          (measureLoopQ cmd elapsed ecode repeat_time fuel (duration + elapsed count) (count + 1)).1,
         (measureLoopQ cmd elapsed ecode repeat_time fuel (duration + elapsed count) (count + 1)).2)
      else ([], some (duration, count))

/-- `measure_time(command, repeat_time)` from `src/benchmark/benchmark.py`
(lines 8-23), the quiet-after-first variant. -/
def measure_time_q (cmd : String) (elapsed : ℕ → ℚ) (ecode : ℕ → ℤ) (repeat_time : ℚ)
    (fuel : ℕ) : List Invocation × MeasureResult :=
  match measureLoopQ cmd elapsed ecode repeat_time fuel 0 0 with
  | (evs, none) => (evs, MeasureResult.fuelOut)
  | (evs, some (duration, count)) =>
      (evs, if count = 0 then MeasureResult.zeroDivErr
            else MeasureResult.mean (duration / count))

/-- `s.replace("/", "\\")` on the character list of a Python string:
the pattern is the single character `/`, so the scan replaces each
occurrence independently. -/
def replaceSlashChars : List Char → List Char
  | [] => []
  | c :: rest => (if c = '/' then '\\' else c) :: replaceSlashChars rest

/-- `cmd.replace("/", "\\")` — the Windows path fix applied in
`__main__` of both scripts. -/
def str_replace_slash (s : String) : String :=
  String.mk (replaceSlashChars s.data)

/-- The command construction of `__main__`
(`src/benchmark.py` lines 38-45): the f-string
`f"{invocation} {options} {target}"`, followed, when `os.name == 'nt'`
(the argument `is_nt`), by `cmd.replace("/", "\\")`. -/
def buildCmd (is_nt : Bool) (invocation options target : String) : String :=
  if is_nt then str_replace_slash (invocation ++ " " ++ options ++ " " ++ target)
  else invocation ++ " " ++ options ++ " " ++ target

/-- The argparse surface of `get_args()` in `src/benchmark.py`:
positional `file`, `--cpplint_cpp`, `--cpplint_py`, `--options` and
the integer `--time`. -/
structure Args where
  file : String
  cpplint_cpp : String
  cpplint_py : String
  options : String
  time : ℤ

/-- `get_args()` defaults of `src/benchmark.py` (lines 18-29) applied
to a given positional `file` argument. -/
def defaultArgs (file : String) : Args :=
  Args.mk file "./build/cpplint-cpp" "python cpplint.py"
    "--recursive --quiet --counting=detailed" 30

/-- An observable step of `__main__`: a line printed to stdout or a
child-process invocation performed inside `measure_time`. -/
inductive Event where
  | line (s : String)
  | run (inv : Invocation)
deriving DecidableEq

/-- The `{x:.6f}` formatting used by the final two prints: the value
rounded to six decimal places and rendered with exactly six fractional
digits (stated for the non-negative durations the harness prints). -/
def format6 (q : ℚ) : String :=
  let n : ℤ := round (q * 1000000)
  let fracDigits : String := toString (n % 1000000)
  toString (n / 1000000) ++ "." ++
    String.mk (List.replicate (6 - fracDigits.length) '0') ++ fracDigits

/-- `__main__` of `src/benchmark.py` (lines 32-57): build `cmd_cpp`
and `cmd_py` (with the Windows path fix when `is_nt`), print the
measuring banner and run `measure_time` for cpplint-cpp, then do the
same for cpplint.py, then print the two result lines.  The returned
option is `some (time1, time2)` on a normal exit (process status 0)
and `none` when the run does not complete normally (an uncaught
`ZeroDivisionError`, or fuel exhaustion standing for a loop that is
still running); the event list holds everything observed up to that
point, in order. -/
def mainRun (args : Args) (is_nt : Bool) (elapsed1 elapsed2 : ℕ → ℚ)
    (ecode1 ecode2 : ℕ → ℤ) (fuel : ℕ) : List Event × Option (ℚ × ℚ) :=
  match measure_time (buildCmd is_nt args.cpplint_cpp args.options args.file)
      elapsed1 ecode1 (args.time : ℚ) fuel with
  | (evs1, MeasureResult.mean time1) =>
    match measure_time (buildCmd is_nt args.cpplint_py args.options args.file)
        elapsed2 ecode2 (args.time : ℚ) fuel with
    | (evs2, MeasureResult.mean time2) =>
        (Event.line ("Measuring time for cpplint-cpp: " ++
            buildCmd is_nt args.cpplint_cpp args.options args.file) :: evs1.map Event.run ++
         Event.line ("Measuring time for cpplint.py: " ++
            buildCmd is_nt args.cpplint_py args.options args.file) :: evs2.map Event.run ++
         [Event.line ("Execution time for cpplint-cpp: " ++ format6 time1 ++ " seconds"),
          Event.line ("Execution time for cpplint-py: " ++ format6 time2 ++ " seconds")],
         some (time1, time2))
    | (evs2, _) =>
        (Event.line ("Measuring time for cpplint-cpp: " ++
            buildCmd is_nt args.cpplint_cpp args.options args.file) :: evs1.map Event.run ++
         Event.line ("Measuring time for cpplint.py: " ++
            buildCmd is_nt args.cpplint_py args.options args.file) :: evs2.map Event.run,
         none)
  | (evs1, _) =>
      (Event.line ("Measuring time for cpplint-cpp: " ++
          buildCmd is_nt args.cpplint_cpp args.options args.file) :: evs1.map Event.run,
       none)

/-- Cumulative elapsed time of the first `n` invocations: the value of
`duration` after `n` executions of the loop body. -/
def sumUpTo (elapsed : ℕ → ℚ) : ℕ → ℚ
  | 0 => 0
  | n + 1 => sumUpTo elapsed n + elapsed n

/-- The loop of `measure_time` terminates on the given environment:
some fuel bound suffices for the `while` condition to fail. -/
def Terminates (cmd : String) (elapsed : ℕ → ℚ) (ecode : ℕ → ℤ) (repeat_time : ℚ) : Prop :=
  ∃ fuel d c, (measureLoop cmd elapsed ecode repeat_time fuel 0 0).2 = some (d, c)

/-- Replacing the exit code with `0` in a recorded invocation: used to
state that the loop never depends on the measured tool's exit codes. -/
def stripCode (inv : Invocation) : Invocation :=
  Invocation.mk inv.cmd inv.idx inv.passthru 0

lemma sumUpTo_le_mul (elapsed : ℕ → ℚ) (M : ℚ) (hM : ∀ i, elapsed i ≤ M) :
    ∀ n : ℕ, sumUpTo elapsed n ≤ (n : ℚ) * M := by
  intro n
  induction n with
  | zero => simp [sumUpTo]
  | succ n ih =>
    rw [sumUpTo]
    push_cast
    have := hM n
    nlinarith

lemma le_sumUpTo_mul (elapsed : ℕ → ℚ) (eps : ℚ) (h : ∀ i, eps ≤ elapsed i) :
    ∀ n : ℕ, (n : ℚ) * eps ≤ sumUpTo elapsed n := by
  intro n
  induction n with
  | zero => simp [sumUpTo]
  | succ n ih =>
    rw [sumUpTo]
    push_cast
    have := h n
    nlinarith

lemma measureLoop_exit (cmd : String) (elapsed : ℕ → ℚ) (ecode : ℕ → ℤ) (T : ℚ) :
    ∀ fuel count evs d c,
      measureLoop cmd elapsed ecode T fuel (sumUpTo elapsed count) count = (evs, some (d, c)) →
      count ≤ c ∧ d = sumUpTo elapsed c ∧ T ≤ d ∧
        ∀ m, count ≤ m → m < c → sumUpTo elapsed m < T := by
  intro fuel
  induction fuel with
  | zero =>
    intro count evs d c h
    rw [measureLoop] at h
    split at h
    · simp at h
    · next hge =>
      have h' : evs = [] ∧ sumUpTo elapsed count = d ∧ count = c := by
        simpa [Prod.ext_iff] using h
      obtain ⟨-, hd, hc⟩ := h'
      subst hc
      exact ⟨le_rfl, hd.symm, hd ▸ not_lt.mp hge, fun m hm1 hm2 => absurd hm1 (by omega)⟩
  | succ fuel ih =>
    intro count evs d c h
    rw [measureLoop] at h
    split at h
    · next hlt =>
      have hsum : sumUpTo elapsed count + elapsed count = sumUpTo elapsed (count + 1) := rfl
      rw [hsum] at h
      have h2 : (measureLoop cmd elapsed ecode T fuel (sumUpTo elapsed (count + 1))
          (count + 1)).2 = some (d, c) := by
        have := congrArg Prod.snd h
        simpa using this
      have hpair : measureLoop cmd elapsed ecode T fuel (sumUpTo elapsed (count + 1))
          (count + 1) =
          ((measureLoop cmd elapsed ecode T fuel (sumUpTo elapsed (count + 1)) (count + 1)).1,
            some (d, c)) :=
        Prod.ext rfl h2
      obtain ⟨hc1, hd, hT, hmin⟩ := ih (count + 1) _ d c hpair
      refine ⟨by omega, hd, hT, fun m hm1 hm2 => ?_⟩
      rcases Nat.eq_or_lt_of_le hm1 with heq | hlt2
      · exact heq ▸ hlt
      · exact hmin m hlt2 hm2
    · next hge =>
      have h' : evs = [] ∧ sumUpTo elapsed count = d ∧ count = c := by
        simpa [Prod.ext_iff] using h
      obtain ⟨-, hd, hc⟩ := h'
      subst hc
      exact ⟨le_rfl, hd.symm, hd ▸ not_lt.mp hge, fun m hm1 hm2 => absurd hm1 (by omega)⟩

lemma measureLoop_reaches (cmd : String) (elapsed : ℕ → ℚ) (ecode : ℕ → ℤ) (T : ℚ)
    (n : ℕ) (hn : T ≤ sumUpTo elapsed n) :
    ∀ fuel count, count ≤ n → n ≤ count + fuel →
      (∀ m, count ≤ m → m < n → sumUpTo elapsed m < T) →
      (measureLoop cmd elapsed ecode T fuel (sumUpTo elapsed count) count).2 =
        some (sumUpTo elapsed n, n) := by
  intro fuel
  induction fuel with
  | zero =>
    intro count h1 h2 _
    have hcn : count = n := by omega
    subst hcn
    rw [measureLoop, if_neg (not_lt.mpr hn)]
  | succ fuel ih =>
    intro count h1 h2 hmin
    rcases Nat.eq_or_lt_of_le h1 with heq | hlt
    · subst heq
      rw [measureLoop, if_neg (not_lt.mpr hn)]
    · have hcnt : sumUpTo elapsed count < T := hmin count le_rfl hlt
      rw [measureLoop, if_pos hcnt]
      have hsum : sumUpTo elapsed count + elapsed count = sumUpTo elapsed (count + 1) := rfl
      rw [hsum]
      exact ih (count + 1) hlt (by omega) (fun m hm1 hm2 => hmin m (by omega) hm2)

lemma measureLoop_cmd (cmd : String) (elapsed : ℕ → ℚ) (ecode : ℕ → ℤ) (T : ℚ) :
    ∀ fuel d c inv, inv ∈ (measureLoop cmd elapsed ecode T fuel d c).1 → inv.cmd = cmd := by
  intro fuel
  induction fuel with
  | zero =>
    intro d c inv h
    rw [measureLoop] at h
    split at h <;> simp at h
  | succ fuel ih =>
    intro d c inv h
    rw [measureLoop] at h
    split at h
    · rcases List.mem_cons.mp h with h1 | h1
      · rw [h1]
      · exact ih _ _ inv h1
    · simp at h

lemma measureLoop_ecode (cmd : String) (elapsed : ℕ → ℚ) (T : ℚ) (ec1 ec2 : ℕ → ℤ) :
    ∀ fuel d c,
      (measureLoop cmd elapsed ec1 T fuel d c).2 = (measureLoop cmd elapsed ec2 T fuel d c).2 ∧
      (measureLoop cmd elapsed ec1 T fuel d c).1.map stripCode =
        (measureLoop cmd elapsed ec2 T fuel d c).1.map stripCode := by
  intro fuel
  induction fuel with
  | zero =>
    intro d c
    rw [measureLoop, measureLoop]
    split <;> exact ⟨rfl, rfl⟩
  | succ fuel ih =>
    intro d c
    rw [measureLoop, measureLoop]
    split
    · obtain ⟨h2, h1⟩ := ih (d + elapsed c) (c + 1)
      exact ⟨h2, by simpa [stripCode] using h1⟩
    · exact ⟨rfl, rfl⟩

lemma measureLoopQ_passthru (cmd : String) (elapsed : ℕ → ℚ) (ecode : ℕ → ℤ) (T : ℚ) :
    ∀ fuel d c inv, inv ∈ (measureLoopQ cmd elapsed ecode T fuel d c).1 →
      (inv.passthru = true ↔ inv.idx = 0) := by
  intro fuel
  induction fuel with
  | zero =>
    intro d c inv h
    rw [measureLoopQ] at h
    split at h <;> simp at h
  | succ fuel ih =>
    intro d c inv h
    rw [measureLoopQ] at h
    split at h
    · rcases List.mem_cons.mp h with h1 | h1
      · rw [h1]
        simp [Nat.beq_eq_true_eq]
      · exact ih _ _ inv h1
    · simp at h

lemma replaceSlashChars_eq_map :
    ∀ l : List Char, replaceSlashChars l = l.map (fun ch => if ch = '/' then '\\' else ch) := by
  intro l
  induction l with
  | nil => rfl
  | cons c rest ih => rw [replaceSlashChars, List.map_cons, ih]

lemma replaceSlashChars_no_slash (l : List Char) : '/' ∉ replaceSlashChars l := by
  rw [replaceSlashChars_eq_map]
  intro h
  obtain ⟨ch, _, hch⟩ := List.mem_map.mp h
  by_cases hc : ch = '/'
  · rw [if_pos hc] at hch
    exact absurd hch (by decide)
  · rw [if_neg hc] at hch
    exact hc hch

lemma replaceSlashChars_idem (l : List Char) :
    replaceSlashChars (replaceSlashChars l) = replaceSlashChars l := by
  rw [replaceSlashChars_eq_map, replaceSlashChars_eq_map, List.map_map]
  refine congrFun (congrArg List.map (funext fun c => ?_)) l
  by_cases hc : c = '/'
  · subst hc; rfl
  · simp [hc]

/-- C3 (confirmed): the Command Builder returns `<invocation> <options> <target>`
joined with single spaces in that fixed order; when the platform uses the
backslash separator (`os.name == 'nt'`), every forward slash anywhere in the
entire joined string (invocation and options included) is replaced by a
backslash, so the result contains no forward slash; on all other platforms
the joined string is returned unchanged byte-for-byte. -/
theorem buildCmd_spec (invocation options target : String) :
    buildCmd false invocation options target = invocation ++ " " ++ options ++ " " ++ target ∧
    (buildCmd true invocation options target).data =
      (invocation ++ " " ++ options ++ " " ++ target).data.map
        (fun ch => if ch = '/' then '\\' else ch) ∧
    '/' ∉ (buildCmd true invocation options target).data := by
  refine ⟨rfl, ?_, ?_⟩
  · show (str_replace_slash (invocation ++ " " ++ options ++ " " ++ target)).data = _
    rw [str_replace_slash, replaceSlashChars_eq_map]
  · show '/' ∉ (str_replace_slash (invocation ++ " " ++ options ++ " " ++ target)).data
    rw [str_replace_slash]
    exact replaceSlashChars_no_slash _

/-- C9 (confirmed): the Command Builder is deterministic (two applications to
identical inputs give the identical string), and the platform normalization is
idempotent: renormalizing the builder's backslash-platform output leaves it
unchanged, because one normalization pass leaves no forward slash behind. -/
theorem buildCmd_deterministic_idempotent (is_nt : Bool) (invocation options target : String) :
    buildCmd is_nt invocation options target = buildCmd is_nt invocation options target ∧
    str_replace_slash (buildCmd true invocation options target) =
      buildCmd true invocation options target ∧
    '/' ∉ (str_replace_slash (invocation ++ " " ++ options ++ " " ++ target)).data := by
  refine ⟨rfl, ?_, ?_⟩
  · show str_replace_slash (str_replace_slash (invocation ++ " " ++ options ++ " " ++ target)) = _
    rw [str_replace_slash, str_replace_slash]
    exact congrArg String.mk (replaceSlashChars_idem _)
  · rw [str_replace_slash]
    exact replaceSlashChars_no_slash _

/-- C1 (corrected): the `while duration < repeat_time` check is made BEFORE,
not after, executing the command, so for every `target_duration ≤ 0` the loop
body never runs: the command is invoked zero times (not once) and the final
`duration / count` is `0 / 0`, which raises `ZeroDivisionError` instead of
returning a mean. -/
theorem measure_time_nonpos_target (cmd : String) (elapsed : ℕ → ℚ) (ecode : ℕ → ℤ)
    (T : ℚ) (fuel : ℕ) (hT : T ≤ 0) :
    measure_time cmd elapsed ecode T fuel = ([], MeasureResult.zeroDivErr) := by
  have h0 : ¬ ((0 : ℚ) < T) := not_lt.mpr hT
  have hloop : measureLoop cmd elapsed ecode T fuel 0 0 = ([], some (0, 0)) := by
    cases fuel with
    | zero => rw [measureLoop, if_neg h0]
    | succ fuel => rw [measureLoop, if_neg h0]
  simp [measure_time, hloop]

/-- Witness for the C1 theorem at `target_duration = 0`. -/
theorem measure_time_nonpos_target_witness :
    measure_time "./build/cpplint-cpp --recursive src" (fun _ => 1) (fun _ => 0) 0 3 =
      ([], MeasureResult.zeroDivErr) :=
  measure_time_nonpos_target "./build/cpplint-cpp --recursive src" (fun _ => 1) (fun _ => 0) 0 3
    le_rfl

/-- Counterexample to C1 as stated: at `target_duration = 0` (command `"x"`,
every invocation would take 1 second) the loop performs zero invocations, not
exactly one, and no mean is ever returned. -/
theorem measure_time_nonpos_target_cex :
    (measure_time "x" (fun _ => 1) (fun _ => 0) 0 3).1.length = 0 ∧
    ∀ q : ℚ, (measure_time "x" (fun _ => 1) (fun _ => 0) 0 3).2 ≠ MeasureResult.mean q := by
  norm_num [measure_time, measureLoop]
  intro q
  exact fun h => MeasureResult.noConfusion h

/-- C10 (confirmed): the final division `duration / count` in `measure_time`
is unguarded and its divisor `count` is zero exactly when the loop body
executed zero times, which happens exactly when `target_duration ≤ 0`; under
the precondition `target_duration > 0` at least one iteration occurs, so
`count ≥ 1` at loop exit and the zero-divisor branch is unreachable: the
mean `duration / count` is returned normally. -/
theorem measure_time_div_guard (cmd : String) (elapsed : ℕ → ℚ) (ecode : ℕ → ℤ)
    (T : ℚ) (fuel : ℕ) (evs : List Invocation) (d : ℚ) (c : ℕ)
    (h : measureLoop cmd elapsed ecode T fuel 0 0 = (evs, some (d, c))) :
    (c = 0 ↔ T ≤ 0) ∧
    (0 < T → 1 ≤ c ∧
      measure_time cmd elapsed ecode T fuel = (evs, MeasureResult.mean (d / c))) := by
  have h' : measureLoop cmd elapsed ecode T fuel (sumUpTo elapsed 0) 0 = (evs, some (d, c)) := h
  obtain ⟨-, hd, hT, hmin⟩ := measureLoop_exit cmd elapsed ecode T fuel 0 evs d c h'
  have hiff : c = 0 ↔ T ≤ 0 := by
    constructor
    · intro hc
      subst hc
      rw [hd] at hT
      simpa [sumUpTo] using hT
    · intro hT0
      by_contra hc
      have hlt : sumUpTo elapsed 0 < T := hmin 0 (Nat.zero_le _) (Nat.pos_of_ne_zero hc)
      simp only [sumUpTo] at hlt
      linarith
  refine ⟨hiff, fun hT0 => ?_⟩
  have hc : c ≠ 0 := fun hc0 => absurd hT0 (not_lt.mpr (hiff.mp hc0))
  refine ⟨Nat.one_le_iff_ne_zero.mpr hc, ?_⟩
  simp [measure_time, h, hc]

/-- Witness for the C10 theorem: target 2, every invocation takes 2 seconds,
the loop exits after one invocation with `duration = 2`, `count = 1`. -/
theorem measure_time_div_guard_witness :
    ((1 : ℕ) = 0 ↔ (2 : ℚ) ≤ 0) ∧
    (0 < (2 : ℚ) → 1 ≤ 1 ∧
      measure_time "x" (fun _ => 2) (fun _ => 0) 2 3 =
        ([Invocation.mk "x" 0 true 0], MeasureResult.mean (2 / ((1 : ℕ) : ℚ)))) :=
  measure_time_div_guard "x" (fun _ => 2) (fun _ => 0) 2 3 [Invocation.mk "x" 0 true 0] 2 1
    (by norm_num [measureLoop])

/-- C2 (corrected): under the claim's own precondition (every elapsed time
positive and at most `M`) the loop need not terminate — see the geometric
counterexample — so a positive lower bound `eps` on the elapsed times is
added.  With `0 < eps ≤ elapsed i ≤ M` and `target_duration > 0` the loop
terminates, exits only when the accumulated duration has reached the target
(every earlier prefix sum is still below it), performs at least
`⌈target_duration / M⌉` invocations, and `measure_time` returns the mean. -/
theorem measure_time_pos_target (cmd : String) (elapsed : ℕ → ℚ) (ecode : ℕ → ℤ)
    (T M eps : ℚ) (hT : 0 < T) (heps : 0 < eps)
    (hlo : ∀ i, eps ≤ elapsed i) (hhi : ∀ i, elapsed i ≤ M) :
    ∃ fuel evs d c,
      measureLoop cmd elapsed ecode T fuel 0 0 = (evs, some (d, c)) ∧
      T ≤ d ∧ (⌈T / M⌉ : ℤ) ≤ (c : ℤ) ∧ (∀ m < c, sumUpTo elapsed m < T) ∧
      measure_time cmd elapsed ecode T fuel = (evs, MeasureResult.mean (d / c)) := by
  have hM0 : 0 < M := lt_of_lt_of_le heps ((hlo 0).trans (hhi 0))
  have hex : ∃ n : ℕ, T ≤ sumUpTo elapsed n := by
    obtain ⟨k, hk⟩ := exists_nat_ge (T / eps)
    refine ⟨k, le_trans ?_ (le_sumUpTo_mul elapsed eps hlo k)⟩
    exact (div_le_iff₀ heps).mp hk
  let N := Nat.find hex
  have hN : T ≤ sumUpTo elapsed N := Nat.find_spec hex
  have hmin : ∀ m, m < N → sumUpTo elapsed m < T := fun m hm =>
    not_le.mp (Nat.find_min hex hm)
  have h2 : (measureLoop cmd elapsed ecode T N 0 0).2 = some (sumUpTo elapsed N, N) :=
    measureLoop_reaches cmd elapsed ecode T N hN N 0 (Nat.zero_le _) (by omega)
      (fun m _ hm => hmin m hm)
  have hNpos : N ≠ 0 := by
    intro h0
    rw [h0] at hN
    simp only [sumUpTo] at hN
    linarith
  have hceil : (⌈T / M⌉ : ℤ) ≤ (N : ℤ) := by
    have hle : T / M ≤ (N : ℚ) := by
      rw [div_le_iff₀ hM0]
      exact le_trans hN (sumUpTo_le_mul elapsed M hhi N)
    calc (⌈T / M⌉ : ℤ) ≤ ⌈((N : ℚ))⌉ := Int.ceil_mono hle
      _ = (N : ℤ) := Int.ceil_natCast N
  rcases hA : measureLoop cmd elapsed ecode T N 0 0 with ⟨evs, r⟩
  have hr : r = some (sumUpTo elapsed N, N) := by
    rw [hA] at h2
    simpa using h2
  subst hr
  refine ⟨N, evs, sumUpTo elapsed N, N, hA, hN, hceil, fun m hm => hmin m hm, ?_⟩
  simp [measure_time, hA, hNpos]

/-- Witness for the C2 theorem: command `"x"`, every invocation takes exactly
1 second, bounds `eps = M = 1`, target 2 seconds. -/
theorem measure_time_pos_target_witness :
    ∃ fuel evs d c,
      measureLoop "x" (fun _ => 1) (fun _ => 0) 2 fuel 0 0 = (evs, some (d, c)) ∧
      (2 : ℚ) ≤ d ∧ (⌈(2 : ℚ) / 1⌉ : ℤ) ≤ (c : ℤ) ∧
      (∀ m < c, sumUpTo (fun _ => 1) m < 2) ∧
      measure_time "x" (fun _ => 1) (fun _ => 0) 2 fuel =
        (evs, MeasureResult.mean (d / c)) :=
  measure_time_pos_target "x" (fun _ => 1) (fun _ => 0) 2 1 1 (by norm_num) (by norm_num)
    (fun i => le_rfl) (fun i => le_rfl)

/-- Elapsed-time trace `1/2, 1/4, 1/8, ...`: every value is positive and at
most 1, yet the accumulated duration never reaches 1. -/
def elGeo (i : ℕ) : ℚ := (1 / 2) ^ (i + 1)

lemma sumUpTo_elGeo (n : ℕ) : sumUpTo elGeo n = 1 - (1 / 2) ^ n := by
  induction n with
  | zero => simp [sumUpTo]
  | succ n ih =>
    rw [sumUpTo, ih, elGeo]
    ring

/-- Counterexample to C2 as stated: with `target_duration = 1 > 0` and the
trace `elGeo` — every invocation's elapsed time is positive and at most
`max_single_elapsed = 1`, satisfying the claim's precondition — the loop
never terminates: no amount of fuel makes the `while` condition fail. -/
theorem measure_time_pos_target_cex :
    (∀ i, 0 < elGeo i) ∧ (∀ i, elGeo i ≤ 1) ∧ (0 : ℚ) < 1 ∧
    ¬ Terminates "x" elGeo (fun _ => 0) 1 := by
  refine ⟨fun i => pow_pos (by norm_num) _,
    fun i => pow_le_one₀ (by norm_num) (by norm_num), by norm_num, ?_⟩
  rintro ⟨fuel, d, c, h⟩
  have hpair : measureLoop "x" elGeo (fun _ => 0) 1 fuel (sumUpTo elGeo 0) 0 =
      ((measureLoop "x" elGeo (fun _ => 0) 1 fuel 0 0).1, some (d, c)) :=
    Prod.ext rfl h
  obtain ⟨-, hd, hT, -⟩ := measureLoop_exit "x" elGeo (fun _ => 0) 1 fuel 0 _ d c hpair
  rw [hd, sumUpTo_elGeo] at hT
  have hpow : (0 : ℚ) < (1 / 2) ^ c := pow_pos (by norm_num) c
  linarith

/-- C7 (confirmed): `measure_time` never inspects or propagates the measured
tool's exit code: replacing the whole exit-code trace (for example all
failures) by any other trace leaves the returned result, the number of
invocations, and the invocations themselves (apart from the recorded codes)
unchanged — failing commands are timed exactly like succeeding ones and the
mean is returned without any harness error. -/
theorem measure_time_ignores_exit_code (cmd : String) (elapsed : ℕ → ℚ)
    (ecFail ecOk : ℕ → ℤ) (T : ℚ) (fuel : ℕ) :
    (measure_time cmd elapsed ecFail T fuel).2 = (measure_time cmd elapsed ecOk T fuel).2 ∧
    (measure_time cmd elapsed ecFail T fuel).1.map stripCode =
      (measure_time cmd elapsed ecOk T fuel).1.map stripCode ∧
    (measure_time cmd elapsed ecFail T fuel).1.length =
      (measure_time cmd elapsed ecOk T fuel).1.length := by
  obtain ⟨h2, h1⟩ := measureLoop_ecode cmd elapsed T ecFail ecOk fuel 0 0
  cases hA : measureLoop cmd elapsed ecFail T fuel 0 0 with
  | mk evs1 r1 =>
    cases hB : measureLoop cmd elapsed ecOk T fuel 0 0 with
    | mk evs2 r2 =>
      rw [hA, hB] at h1 h2
      simp only at h1 h2
      subst h2
      have hlen : evs1.length = evs2.length := by
        have := congrArg List.length h1
        simpa using this
      cases r1 with
      | none => simp [measure_time, hA, hB, h1, hlen]
      | some dc =>
        obtain ⟨d, c⟩ := dc
        by_cases hc : c = 0 <;> simp [measure_time, hA, hB, hc, h1, hlen]

/-- C6 (confirmed): in the quiet-after-first variant the child's stdout and
stderr are inherited exactly on the first invocation (`count == 0`); every
invocation of index ≥ 1 inside the same loop has both streams discarded. -/
theorem measure_time_q_quiet (cmd : String) (elapsed : ℕ → ℚ) (ecode : ℕ → ℤ)
    (T : ℚ) (fuel : ℕ) (inv : Invocation)
    (h : inv ∈ (measure_time_q cmd elapsed ecode T fuel).1) :
    inv.passthru = true ↔ inv.idx = 0 := by
  have hmem : inv ∈ (measureLoopQ cmd elapsed ecode T fuel 0 0).1 := by
    cases hA : measureLoopQ cmd elapsed ecode T fuel 0 0 with
    | mk evs r =>
      cases r with
      | none => simpa [measure_time_q, hA] using h
      | some dc =>
        obtain ⟨d, c⟩ := dc
        by_cases hc : c = 0 <;> simpa [measure_time_q, hA, hc] using h
  exact measureLoopQ_passthru cmd elapsed ecode T fuel 0 0 inv hmem

/-- Witness for the C6 theorem: the second invocation (index 1) of a concrete
quiet-variant run has its output discarded. -/
theorem measure_time_q_quiet_witness :
    (Invocation.mk "x" 1 false 0).passthru = true ↔ (Invocation.mk "x" 1 false 0).idx = 0 :=
  measure_time_q_quiet "x" (fun _ => 1) (fun _ => 0) 2 5 (Invocation.mk "x" 1 false 0)
    (by norm_num [measure_time_q, measureLoopQ])

lemma measure_time_fst (cmd : String) (elapsed : ℕ → ℚ) (ecode : ℕ → ℤ) (T : ℚ) (fuel : ℕ) :
    (measure_time cmd elapsed ecode T fuel).1 = (measureLoop cmd elapsed ecode T fuel 0 0).1 := by
  cases hA : measureLoop cmd elapsed ecode T fuel 0 0 with
  | mk evs r =>
    cases r with
    | none => simp [measure_time, hA]
    | some dc =>
      obtain ⟨d, c⟩ := dc
      by_cases hc : c = 0 <;> simp [measure_time, hA, hc]

lemma measure_time_snd_ecode (cmd : String) (elapsed : ℕ → ℚ) (T : ℚ) (ec1 ec2 : ℕ → ℤ)
    (fuel : ℕ) :
    (measure_time cmd elapsed ec1 T fuel).2 = (measure_time cmd elapsed ec2 T fuel).2 := by
  obtain ⟨h2, -⟩ := measureLoop_ecode cmd elapsed T ec1 ec2 fuel 0 0
  cases hA : measureLoop cmd elapsed ec1 T fuel 0 0 with
  | mk evs1 r1 =>
    cases hB : measureLoop cmd elapsed ec2 T fuel 0 0 with
    | mk evs2 r2 =>
      rw [hA, hB] at h2
      simp only at h2
      subst h2
      cases r1 with
      | none => simp [measure_time, hA, hB]
      | some dc =>
        obtain ⟨d, c⟩ := dc
        by_cases hc : c = 0 <;> simp [measure_time, hA, hB, hc]

lemma mainRun_mean (args : Args) (is_nt : Bool) (elapsed1 elapsed2 : ℕ → ℚ)
    (ecode1 ecode2 : ℕ → ℤ) (fuel : ℕ) (evs1 evs2 : List Invocation) (t1 t2 : ℚ)
    (h1 : measure_time (buildCmd is_nt args.cpplint_cpp args.options args.file)
        elapsed1 ecode1 (args.time : ℚ) fuel = (evs1, MeasureResult.mean t1))
    (h2 : measure_time (buildCmd is_nt args.cpplint_py args.options args.file)
        elapsed2 ecode2 (args.time : ℚ) fuel = (evs2, MeasureResult.mean t2)) :
    mainRun args is_nt elapsed1 elapsed2 ecode1 ecode2 fuel =
      (Event.line ("Measuring time for cpplint-cpp: " ++
          buildCmd is_nt args.cpplint_cpp args.options args.file) :: evs1.map Event.run ++
       Event.line ("Measuring time for cpplint.py: " ++
          buildCmd is_nt args.cpplint_py args.options args.file) :: evs2.map Event.run ++
       [Event.line ("Execution time for cpplint-cpp: " ++ format6 t1 ++ " seconds"),
        Event.line ("Execution time for cpplint-py: " ++ format6 t2 ++ " seconds")],
       some (t1, t2)) := by
  simp [mainRun, h1, h2]

/-- C5 (corrected): the two Measurement Runs are strictly sequential, but the
order is candidate first: `__main__` runs the full cpplint-cpp loop to
completion, then the full cpplint.py loop, with no invocation of the
reference tool occurring before the candidate run has finished.  The event
trace is the cpplint-cpp banner, all cpplint-cpp invocations, the cpplint.py
banner, all cpplint.py invocations, then the two result lines. -/
theorem mainRun_sequential (args : Args) (is_nt : Bool) (elapsed1 elapsed2 : ℕ → ℚ)
    (ecode1 ecode2 : ℕ → ℤ) (fuel : ℕ) (evs1 evs2 : List Invocation) (t1 t2 : ℚ)
    (h1 : measure_time (buildCmd is_nt args.cpplint_cpp args.options args.file)
        elapsed1 ecode1 (args.time : ℚ) fuel = (evs1, MeasureResult.mean t1))
    (h2 : measure_time (buildCmd is_nt args.cpplint_py args.options args.file)
        elapsed2 ecode2 (args.time : ℚ) fuel = (evs2, MeasureResult.mean t2)) :
    (mainRun args is_nt elapsed1 elapsed2 ecode1 ecode2 fuel).1 =
      Event.line ("Measuring time for cpplint-cpp: " ++
          buildCmd is_nt args.cpplint_cpp args.options args.file) :: evs1.map Event.run ++
      Event.line ("Measuring time for cpplint.py: " ++
          buildCmd is_nt args.cpplint_py args.options args.file) :: evs2.map Event.run ++
      [Event.line ("Execution time for cpplint-cpp: " ++ format6 t1 ++ " seconds"),
       Event.line ("Execution time for cpplint-py: " ++ format6 t2 ++ " seconds")] ∧
    (∀ inv ∈ evs1, inv.cmd = buildCmd is_nt args.cpplint_cpp args.options args.file) ∧
    (∀ inv ∈ evs2, inv.cmd = buildCmd is_nt args.cpplint_py args.options args.file) := by
  refine ⟨?_, ?_, ?_⟩
  · rw [mainRun_mean args is_nt elapsed1 elapsed2 ecode1 ecode2 fuel evs1 evs2 t1 t2 h1 h2]
  · intro inv hmem
    have he : evs1 = (measureLoop (buildCmd is_nt args.cpplint_cpp args.options args.file)
        elapsed1 ecode1 (args.time : ℚ) fuel 0 0).1 := by
      have := congrArg Prod.fst h1
      simp only at this
      rw [← this, measure_time_fst]
    exact measureLoop_cmd _ elapsed1 ecode1 _ fuel 0 0 inv (he ▸ hmem)
  · intro inv hmem
    have he : evs2 = (measureLoop (buildCmd is_nt args.cpplint_py args.options args.file)
        elapsed2 ecode2 (args.time : ℚ) fuel 0 0).1 := by
      have := congrArg Prod.fst h2
      simp only at this
      rw [← this, measure_time_fst]
    exact measureLoop_cmd _ elapsed2 ecode2 _ fuel 0 0 inv (he ▸ hmem)

/-- Concrete argument set for the counterexample runs: default tool
invocations and options, target path `src/`, `--time 1`. -/
def argsT1 : Args :=
  Args.mk "src/" "./build/cpplint-cpp" "python cpplint.py"
    "--recursive --quiet --counting=detailed" 1

/-- Witness for the C5 theorem: a concrete complete run (each invocation
takes 1 second, target 1 second, so each tool is invoked once). -/
theorem mainRun_sequential_witness :
    (mainRun argsT1 false (fun _ => 1) (fun _ => 1) (fun _ => 0) (fun _ => 0) 2).1 =
      Event.line ("Measuring time for cpplint-cpp: " ++
          buildCmd false argsT1.cpplint_cpp argsT1.options argsT1.file) ::
        [Invocation.mk (buildCmd false argsT1.cpplint_cpp argsT1.options argsT1.file)
          0 true 0].map Event.run ++
      Event.line ("Measuring time for cpplint.py: " ++
          buildCmd false argsT1.cpplint_py argsT1.options argsT1.file) ::
        [Invocation.mk (buildCmd false argsT1.cpplint_py argsT1.options argsT1.file)
          0 true 0].map Event.run ++
      [Event.line ("Execution time for cpplint-cpp: " ++ format6 1 ++ " seconds"),
       Event.line ("Execution time for cpplint-py: " ++ format6 1 ++ " seconds")] ∧
    (∀ inv ∈ [Invocation.mk (buildCmd false argsT1.cpplint_cpp argsT1.options argsT1.file)
        0 true 0],
      inv.cmd = buildCmd false argsT1.cpplint_cpp argsT1.options argsT1.file) ∧
    (∀ inv ∈ [Invocation.mk (buildCmd false argsT1.cpplint_py argsT1.options argsT1.file)
        0 true 0],
      inv.cmd = buildCmd false argsT1.cpplint_py argsT1.options argsT1.file) :=
  mainRun_sequential argsT1 false (fun _ => 1) (fun _ => 1) (fun _ => 0) (fun _ => 0) 2
    [Invocation.mk (buildCmd false argsT1.cpplint_cpp argsT1.options argsT1.file) 0 true 0]
    [Invocation.mk (buildCmd false argsT1.cpplint_py argsT1.options argsT1.file) 0 true 0]
    1 1 (by norm_num [measure_time, measureLoop, argsT1])
    (by norm_num [measure_time, measureLoop, argsT1])

/-- Counterexample to C5 as stated: in a concrete complete run the
candidate's (cpplint-cpp's) first invocation is the event at index 1, before
the reference tool's (cpplint.py's) first invocation at index 3 — so an
invocation of the candidate does occur before the reference run has
finished (the claim says the reference tool's loop runs first). -/
theorem mainRun_order_cex :
    (mainRun argsT1 false (fun _ => 1) (fun _ => 1) (fun _ => 0) (fun _ => 0) 2).1.get? 1 =
      some (Event.run (Invocation.mk
        (buildCmd false argsT1.cpplint_cpp argsT1.options argsT1.file) 0 true 0)) ∧
    (mainRun argsT1 false (fun _ => 1) (fun _ => 1) (fun _ => 0) (fun _ => 0) 2).1.get? 3 =
      some (Event.run (Invocation.mk
        (buildCmd false argsT1.cpplint_py argsT1.options argsT1.file) 0 true 0)) := by
  norm_num [mainRun, measure_time, measureLoop, argsT1]

/-- C4 (corrected): a tool binary that is missing or not executable does not
prevent the command from being started: with `shell=True` the shell itself
launches and exits non-zero (127), `measure_time` never inspects any exit
code, and `__main__` has no abort path — the harness's result does not depend
on the exit-code traces at all, and whenever the timed loops produce means it
completes the whole comparison normally (process status 0) and prints a
result line for the tool, with no diagnostic about the failed launch. -/
theorem mainRun_no_launch_abort (args : Args) (is_nt : Bool)
    (elapsed1 elapsed2 : ℕ → ℚ) (ecode1 ecode2 : ℕ → ℤ) (fuel : ℕ)
    (evs1 evs2 : List Invocation) (t1 t2 : ℚ)
    (h1 : measure_time (buildCmd is_nt args.cpplint_cpp args.options args.file)
        elapsed1 (fun _ => 0) (args.time : ℚ) fuel = (evs1, MeasureResult.mean t1))
    (h2 : measure_time (buildCmd is_nt args.cpplint_py args.options args.file)
        elapsed2 (fun _ => 0) (args.time : ℚ) fuel = (evs2, MeasureResult.mean t2)) :
    (mainRun args is_nt elapsed1 elapsed2 ecode1 ecode2 fuel).2 = some (t1, t2) ∧
    Event.line ("Execution time for cpplint-cpp: " ++ format6 t1 ++ " seconds") ∈
      (mainRun args is_nt elapsed1 elapsed2 ecode1 ecode2 fuel).1 := by
  rcases hA : measure_time (buildCmd is_nt args.cpplint_cpp args.options args.file)
      elapsed1 ecode1 (args.time : ℚ) fuel with ⟨evs1h, r1⟩
  have hr1 : r1 = MeasureResult.mean t1 := by
    have := measure_time_snd_ecode (buildCmd is_nt args.cpplint_cpp args.options args.file)
      elapsed1 (args.time : ℚ) ecode1 (fun _ => 0) fuel
    rw [hA, h1] at this
    simpa using this
  subst hr1
  rcases hB : measure_time (buildCmd is_nt args.cpplint_py args.options args.file)
      elapsed2 ecode2 (args.time : ℚ) fuel with ⟨evs2h, r2⟩
  have hr2 : r2 = MeasureResult.mean t2 := by
    have := measure_time_snd_ecode (buildCmd is_nt args.cpplint_py args.options args.file)
      elapsed2 (args.time : ℚ) ecode2 (fun _ => 0) fuel
    rw [hB, h2] at this
    simpa using this
  subst hr2
  rw [mainRun_mean args is_nt elapsed1 elapsed2 ecode1 ecode2 fuel evs1h evs2h t1 t2 hA hB]
  refine ⟨rfl, ?_⟩
  simp

/-- Witness for the C4 theorem: every invocation of both tools exits with
code 127 (the shell's command-not-found status for a missing binary), each
takes 2 seconds against a 1-second target; the harness still finishes
normally and prints the cpplint-cpp result line. -/
theorem mainRun_no_launch_abort_witness :
    (mainRun argsT1 false (fun _ => 2) (fun _ => 2) (fun _ => 127) (fun _ => 127) 2).2 =
      some (2, 2) ∧
    Event.line ("Execution time for cpplint-cpp: " ++ format6 2 ++ " seconds") ∈
      (mainRun argsT1 false (fun _ => 2) (fun _ => 2) (fun _ => 127) (fun _ => 127) 2).1 :=
  mainRun_no_launch_abort argsT1 false (fun _ => 2) (fun _ => 2) (fun _ => 127) (fun _ => 127) 2
    [Invocation.mk (buildCmd false argsT1.cpplint_cpp argsT1.options argsT1.file) 0 true 0]
    [Invocation.mk (buildCmd false argsT1.cpplint_py argsT1.options argsT1.file) 0 true 0]
    2 2 (by norm_num [measure_time, measureLoop, argsT1])
    (by norm_num [measure_time, measureLoop, argsT1])

/-- Counterexample to C4 as stated: with every invocation of both tools
exiting 127 (a missing binary under `shell=True`) and taking 1 second against
the 1-second target, the harness does not abort: it completes the comparison
normally (`some`, i.e. exit status 0) and prints a duration result for the
failed tool. -/
theorem mainRun_launch_failure_cex :
    (mainRun argsT1 false (fun _ => 1) (fun _ => 1) (fun _ => 127) (fun _ => 127) 2).2 =
      some (1, 1) ∧
    Event.line ("Execution time for cpplint-cpp: " ++ format6 1 ++ " seconds") ∈
      (mainRun argsT1 false (fun _ => 1) (fun _ => 1) (fun _ => 127) (fun _ => 127) 2).1 := by
  norm_num [mainRun, measure_time, measureLoop, argsT1]

/-- C8 (confirmed): `measure_time` returns `cumulative_duration /
invocation_count` exactly — the quotient times the count recovers the exact
accumulated duration, with no rounding or truncation inside the loop — and
the six-decimal formatting (`format6`) is applied only when the entry point
prints the result line; the pair of means `__main__` computes stays the exact
quotients. -/
theorem measure_time_exact_mean (args : Args) (is_nt : Bool)
    (elapsed1 elapsed2 : ℕ → ℚ) (ecode1 ecode2 : ℕ → ℤ) (fuel : ℕ)
    (evs1 evs2 : List Invocation) (d1 d2 : ℚ) (c1 c2 : ℕ)
    (h1 : measureLoop (buildCmd is_nt args.cpplint_cpp args.options args.file)
        elapsed1 ecode1 (args.time : ℚ) fuel 0 0 = (evs1, some (d1, c1)))
    (hc1 : c1 ≠ 0)
    (h2 : measureLoop (buildCmd is_nt args.cpplint_py args.options args.file)
        elapsed2 ecode2 (args.time : ℚ) fuel 0 0 = (evs2, some (d2, c2)))
    (hc2 : c2 ≠ 0) :
    measure_time (buildCmd is_nt args.cpplint_cpp args.options args.file) elapsed1 ecode1
        (args.time : ℚ) fuel = (evs1, MeasureResult.mean (d1 / c1)) ∧
    (d1 / c1) * c1 = d1 ∧
    (mainRun args is_nt elapsed1 elapsed2 ecode1 ecode2 fuel).2 = some (d1 / c1, d2 / c2) ∧
    Event.line ("Execution time for cpplint-cpp: " ++ format6 (d1 / c1) ++ " seconds") ∈
      (mainRun args is_nt elapsed1 elapsed2 ecode1 ecode2 fuel).1 := by
  have hm1 : measure_time (buildCmd is_nt args.cpplint_cpp args.options args.file) elapsed1
      ecode1 (args.time : ℚ) fuel = (evs1, MeasureResult.mean (d1 / c1)) := by
    simp [measure_time, h1, hc1]
  have hm2 : measure_time (buildCmd is_nt args.cpplint_py args.options args.file) elapsed2
      ecode2 (args.time : ℚ) fuel = (evs2, MeasureResult.mean (d2 / c2)) := by
    simp [measure_time, h2, hc2]
  have hmain := mainRun_mean args is_nt elapsed1 elapsed2 ecode1 ecode2 fuel evs1 evs2
    (d1 / c1) (d2 / c2) hm1 hm2
  refine ⟨hm1, div_mul_cancel₀ d1 (Nat.cast_ne_zero.mpr hc1), ?_, ?_⟩
  · rw [hmain]
  · rw [hmain]
    simp

/-- Witness for the C8 theorem: one 2-second invocation per tool against a
1-second target; the returned mean is exactly `2 / 1`. -/
theorem measure_time_exact_mean_witness :
    measure_time (buildCmd false argsT1.cpplint_cpp argsT1.options argsT1.file) (fun _ => 2)
        (fun _ => 0) ((argsT1.time : ℤ) : ℚ) 2 =
      ([Invocation.mk (buildCmd false argsT1.cpplint_cpp argsT1.options argsT1.file) 0 true 0],
        MeasureResult.mean (2 / ((1 : ℕ) : ℚ))) ∧
    (2 / ((1 : ℕ) : ℚ)) * ((1 : ℕ) : ℚ) = 2 ∧
    (mainRun argsT1 false (fun _ => 2) (fun _ => 2) (fun _ => 0) (fun _ => 0) 2).2 =
      some (2 / ((1 : ℕ) : ℚ), 2 / ((1 : ℕ) : ℚ)) ∧
    Event.line ("Execution time for cpplint-cpp: " ++ format6 (2 / ((1 : ℕ) : ℚ)) ++ " seconds") ∈
      (mainRun argsT1 false (fun _ => 2) (fun _ => 2) (fun _ => 0) (fun _ => 0) 2).1 :=
  measure_time_exact_mean argsT1 false (fun _ => 2) (fun _ => 2) (fun _ => 0) (fun _ => 0) 2
    [Invocation.mk (buildCmd false argsT1.cpplint_cpp argsT1.options argsT1.file) 0 true 0]
    [Invocation.mk (buildCmd false argsT1.cpplint_py argsT1.options argsT1.file) 0 true 0]
    2 2 1 1 (by norm_num [measureLoop, argsT1]) one_ne_zero
    (by norm_num [measureLoop, argsT1]) one_ne_zero
